import Mathlib

/-!
# Verification of the npe-toolkit provider / data-cache / edge-walking core

Shallow embedding of the scoped-provider dependency resolution mechanism
(`lib/core/providers/Providers.tsx`, `lib/core/providers/ProviderImpl.tsx` and
its current revision in `src/unnamed/part_003`), the in-memory data cache
(`lib/data/DataCache.tsx`) and the data-store facade with edge walking
(`lib/data/DataStoreImpl.tsx`).

Modelling conventions:
* JavaScript values are modelled by the inductive `JsValue` (numbers as `Int`;
  the claims under verification do not depend on floating-point behavior).
* JavaScript objects are modelled as association lists (`JsObj`), key order
  being insertion order (matching `Object.keys` / `Object.values` order).
  A spread copy `{...o}` preserves keys and values, so it is the identity on
  this representation (aliasing is not modelled).
* Strict equality `===` on primitives is structural equality; two object or
  array values arising at a `===` comparison in the modelled flows are always
  distinct references, so `===` on them is modelled as `false`.
* Async functions are modelled as pure functions; a fallback loader is
  modelled by the value it would produce, and each cache operation returns,
  along with its result, the updated cache state, the list of listener
  invocations it performed and whether it invoked its fallback.
-/

namespace NpeToolkit

/-- A JavaScript runtime value, as used by the cache and data-store layers. -/
inductive JsValue where
  | undefined : JsValue
  | null : JsValue
  | bool : Bool → JsValue
  | num : Int → JsValue
  | str : String → JsValue
  | obj : List (String × JsValue) → JsValue
  | arr : List JsValue → JsValue
  deriving Repr

/-- A JavaScript object: association list from property name to value,
in insertion order. -/
abbrev JsObj := List (String × JsValue)

mutual

/-- Structural decidable equality for `JsValue` (written by hand because the
inductive nests lists). -/
def JsValue.beq : JsValue → JsValue → Bool
  | .undefined, .undefined => true
  | .null, .null => true
  | .bool a, .bool b => a == b
  | .num a, .num b => a == b
  | .str a, .str b => a == b
  | .obj a, .obj b => JsValue.beqFields a b
  | .arr a, .arr b => JsValue.beqList a b
  | _, _ => false

/-- Pointwise equality of property lists. -/
def JsValue.beqFields : List (String × JsValue) → List (String × JsValue) → Bool
  | [], [] => true
  | (k, v) :: rest, (k', v') :: rest' =>
    k == k' && JsValue.beq v v' && JsValue.beqFields rest rest'
  | _, _ => false

/-- Pointwise equality of value lists. -/
def JsValue.beqList : List JsValue → List JsValue → Bool
  | [], [] => true
  | v :: rest, v' :: rest' => JsValue.beq v v' && JsValue.beqList rest rest'
  | _, _ => false

end

mutual

theorem JsValue.beq_refl : (v : JsValue) → JsValue.beq v v = true
  | .undefined => rfl
  | .null => rfl
  | .bool a => by simp [JsValue.beq]
  | .num a => by simp [JsValue.beq]
  | .str a => by simp [JsValue.beq]
  | .obj fields => by simp [JsValue.beq, JsValue.beqFields_refl fields]
  | .arr elems => by simp [JsValue.beq, JsValue.beqList_refl elems]

theorem JsValue.beqFields_refl :
    (l : List (String × JsValue)) → JsValue.beqFields l l = true
  | [] => rfl
  | (k, v) :: rest => by
    simp [JsValue.beqFields, JsValue.beq_refl v, JsValue.beqFields_refl rest]

theorem JsValue.beqList_refl : (l : List JsValue) → JsValue.beqList l l = true
  | [] => rfl
  | v :: rest => by
    simp [JsValue.beqList, JsValue.beq_refl v, JsValue.beqList_refl rest]

end

mutual

theorem JsValue.eq_of_beq : {a b : JsValue} → JsValue.beq a b = true → a = b
  | .undefined, .undefined, _ => rfl
  | .null, .null, _ => rfl
  | .bool a, .bool b, h => by simpa [JsValue.beq] using h
  | .num a, .num b, h => by simpa [JsValue.beq] using h
  | .str a, .str b, h => by simpa [JsValue.beq] using h
  | .obj a, .obj b, h => by
    have := JsValue.eqFields_of_beq (a := a) (b := b) (by simpa [JsValue.beq] using h)
    simp [this]
  | .arr a, .arr b, h => by
    have := JsValue.eqList_of_beq (a := a) (b := b) (by simpa [JsValue.beq] using h)
    simp [this]

theorem JsValue.eqFields_of_beq :
    {a b : List (String × JsValue)} → JsValue.beqFields a b = true → a = b
  | [], [], _ => rfl
  | (k, v) :: rest, (k', v') :: rest', h => by
    simp only [JsValue.beqFields, Bool.and_eq_true, beq_iff_eq] at h
    obtain ⟨⟨hk, hv⟩, hrest⟩ := h
    have h1 := JsValue.eq_of_beq (a := v) (b := v') hv
    have h2 := JsValue.eqFields_of_beq (a := rest) (b := rest') hrest
    simp [hk, h1, h2]

theorem JsValue.eqList_of_beq :
    {a b : List JsValue} → JsValue.beqList a b = true → a = b
  | [], [], _ => rfl
  | v :: rest, v' :: rest', h => by
    simp only [JsValue.beqList, Bool.and_eq_true] at h
    obtain ⟨hv, hrest⟩ := h
    have h1 := JsValue.eq_of_beq (a := v) (b := v') hv
    have h2 := JsValue.eqList_of_beq (a := rest) (b := rest') hrest
    simp [h1, h2]

end

instance : DecidableEq JsValue := fun a b =>
  if h : JsValue.beq a b = true then
    .isTrue (JsValue.eq_of_beq h)
  else
    .isFalse (fun hab => h (hab ▸ JsValue.beq_refl a))

instance {ε α : Type} [DecidableEq ε] [DecidableEq α] : DecidableEq (Except ε α) :=
  fun a b =>
    match a, b with
    | .error x, .error y =>
      if h : x = y then .isTrue (by rw [h]) else .isFalse (by intro hc; cases hc; exact h rfl)
    | .ok x, .ok y =>
      if h : x = y then .isTrue (by rw [h]) else .isFalse (by intro hc; cases hc; exact h rfl)
    | .error _, .ok _ => .isFalse (by intro hc; cases hc)
    | .ok _, .error _ => .isFalse (by intro hc; cases hc)

/-- Property lookup `o[k]`: the value at the first occurrence of key `k`,
`undefined` when the key is absent. -/
def jsGet (o : JsObj) (k : String) : JsValue :=
  match o.lookup k with
  | some v => v
  | none => .undefined

/-- `typeof v === 'object'`: true for objects, arrays and `null`
(a JavaScript quirk), false for all primitives and `undefined`. -/
def isObjectType : JsValue → Bool
  | .obj _ => true
  | .arr _ => true
  | .null => true
  | _ => false

/-- JavaScript truthiness, as used in `if (existing)` / `if (inCache)` checks. -/
def jsTruthy : JsValue → Bool
  | .undefined => false
  | .null => false
  | .bool b => b
  | .num n => n != 0
  | .str s => s != ""
  | .obj _ => true
  | .arr _ => true

/-- `value != null` (loose): false exactly for `null` and `undefined`. -/
def jsNonNull : JsValue → Bool
  | .undefined => false
  | .null => false
  | _ => true

/-- Strict equality `===`. On primitives it is structural; object and array
operands reaching a `===` in the modelled flows are distinct references, so
the comparison is modelled as `false`. -/
def jsStrictEq : JsValue → JsValue → Bool
  | .undefined, .undefined => true
  | .null, .null => true
  | .bool a, .bool b => a == b
  | .num a, .num b => a == b
  | .str a, .str b => a == b
  | _, _ => false

/-! ## JavaScript coercion helpers used by the query matchers

`lib/data/DataCache.tsx` compares entity fields with query constants using the
raw JS operators `==`, `<`, `<=`, `>`, `>=` and `Array.prototype.includes`.
The claims only exercise these on primitive operands (per the `Where.value`
type in `lib/data/DataStore.tsx`, query constants are strings, numbers,
booleans or arrays thereof); object/array coercion to primitives
(`ToPrimitive`) is modelled as NaN / not-equal and no theorem relies on it. -/

/-- `ToNumber` on the modelled value universe; `none` models NaN.
Numeric strings are modelled for integer literals (JS numbers are floats;
no claim depends on fractional values). -/
def toNumber : JsValue → Option Int
  | .num n => some n
  | .bool b => some (if b then 1 else 0)
  | .null => some 0
  | .undefined => none
  | .str s => if s.trim = "" then some 0 else s.trim.toInt?
  | .obj _ => none
  | .arr _ => none

/-- Loose equality `==`. -/
def jsLooseEq : JsValue → JsValue → Bool
  | .undefined, b => !jsNonNull b
  | .null, b => !jsNonNull b
  | a, .undefined => !jsNonNull a
  | a, .null => !jsNonNull a
  | .str a, .str b => a == b
  | .obj _, _ => false
  | _, .obj _ => false
  | .arr _, _ => false
  | _, .arr _ => false
  | a, b =>
    match toNumber a, toNumber b with
    | some x, some y => x == y
    | _, _ => false

/-- Relational `<` (strings lexicographically, otherwise via `ToNumber`,
false when either side is NaN). -/
def jsLt : JsValue → JsValue → Bool
  | .str a, .str b => a < b
  | a, b =>
    match toNumber a, toNumber b with
    | some x, some y => decide (x < y)
    | _, _ => false

/-- Relational `<=` (false when either side is NaN). -/
def jsLe : JsValue → JsValue → Bool
  | .str a, .str b => a ≤ b
  | a, b =>
    match toNumber a, toNumber b with
    | some x, some y => decide (x ≤ y)
    | _, _ => false

/-- `b.includes(a)` for array `b` (SameValueZero element comparison; the
`in`/`not-in` query constants are arrays per the `Where.value` type). -/
def jsIncludes (b a : JsValue) : Bool :=
  match b with
  | .arr l => l.any (fun x => jsStrictEq x a)
  | _ => false

/-! ## Data model of `lib/data/DataCache.tsx` -/

/-- Operation tags on cache writes (`DataOp` in `lib/data/DataCache.tsx`). -/
inductive DataOp where
  | add
  | update
  | remove
  | load
  deriving DecidableEq, Repr

/-- Comparison operators of `Where.op` in `lib/data/DataStore.tsx`. -/
inductive WhereOp where
  | eq
  | ne
  | lt
  | le
  | gt
  | ge
  | isIn
  | notIn
  deriving DecidableEq, Repr

/-- One `where` clause `{field, op, value}` of a query. -/
structure Where where
  field : String
  op : WhereOp
  value : JsValue
  deriving DecidableEq, Repr

/-- An ordering clause `{field, dir}` (`dir` true = ascending). -/
structure Order where
  field : String
  asc : Bool
  deriving DecidableEq, Repr

/-- A query descriptor (`Query<T>` in `lib/data/DataStore.tsx`); `limit.after`
cursors are irrelevant to the claims and the size alone is modelled. -/
structure Query where
  whereClauses : Option (List Where) := none
  order : Option (List Order) := none
  limit : Option Nat := none
  deriving DecidableEq, Repr

/-- The `matchers` table of `lib/data/DataCache.tsx`. -/
def matcherFor : WhereOp → JsValue → JsValue → Bool
  | .eq, a, b => jsLooseEq a b
  | .ne, a, b => !jsLooseEq a b
  | .lt, a, b => jsLt a b
  | .le, a, b => jsLe a b
  | .gt, a, b => jsLt b a
  | .ge, a, b => jsLe b a
  | .isIn, a, b => jsIncludes b a
  | .notIn, a, b => !jsIncludes b a

/-- `toPredicate` of `lib/data/DataCache.tsx`: an item matches when every
`where` clause's matcher accepts the item's field value. -/
def toPredicate (q : Query) (item : JsObj) : Bool :=
  (q.whereClauses.getD []).all fun w => matcherFor w.op (jsGet item w.field) w.value

/-- `keyFor` of `lib/data/DataCache.tsx` serializes `{where: query.where}`
with `JSON.stringify`; the serialization is injective on the `where` property
(including the absent-vs-empty distinction), so the fingerprint is modelled as
the `where` property itself. -/
def keyFor (q : Query) : Option (List Where) :=
  q.whereClauses

/-- Replace the value at a key of a JS record (or `Map`), preserving the
key's insertion position (JS records and `Map`s have unique keys, so
replacing the first occurrence is replacing the occurrence); append when the
key is new. -/
def recordSet [DecidableEq κ] : List (κ × α) → κ → α → List (κ × α)
  | [], k, v => [(k, v)]
  | p :: rest, k, v =>
    if p.1 = k then (k, v) :: rest else p :: recordSet rest k v

/-- Delete a key from a JS record (or `Map`). -/
def recordDelete [DecidableEq κ] (m : List (κ × α)) (k : κ) : List (κ × α) :=
  m.filter fun p => p.1 ≠ k

/-- State of one in-memory cache namespace (`inMemoryCache` in
`lib/data/DataCache.tsx`): the id → value record, the listener record
(callbacks modelled by numeric identity) and the set of query fingerprints
already loaded. Entities (`T extends BaseModel`) are objects, so stored
values are `JsObj` and the array branches of the defensive copies are inert;
a spread copy is the identity on this representation. -/
structure CacheState where
  cache : List (String × JsObj) := []
  listeners : List (String × List Nat) := []
  queryLoaded : List (Option (List Where)) := []
  deriving DecidableEq, Repr

/-- A listener invocation: callback identity, entity id, operation tag. -/
structure Event where
  callback : Nat
  id : String
  op : DataOp
  deriving DecidableEq, Repr

/-- The callbacks registered for one key (id or `"*"`). -/
def listenersFor (st : CacheState) (key : String) : List Nat :=
  (st.listeners.lookup key).getD []

/-- `trigger` of `lib/data/DataCache.tsx`: invoke the listeners for the key,
then the wildcard listeners, each with `(key, op)`. -/
def triggerEvents (st : CacheState) (key : String) (op : DataOp) : List Event :=
  (listenersFor st key ++ listenersFor st "*").map fun c => ⟨c, key, op⟩

/-- `areValuesEqual` of `lib/data/DataCache.tsx`, specialized to the object
operands that `put` passes it. `lhsKeys` are the keys of `lhs` with
non-object values; `rhsKeys` are the keys of `rhs` at which **`lhs`** has a
non-object value (the source filters both key lists by `typeof lhs[key]`). -/
def areValuesEqual (lhs rhs : JsObj) : Bool :=
  let lhsKeys := (lhs.map Prod.fst).filter fun k => !isObjectType (jsGet lhs k)
  let rhsKeys := (rhs.map Prod.fst).filter fun k => !isObjectType (jsGet lhs k)
  lhsKeys.length == rhsKeys.length &&
    lhsKeys.all fun k => k == "updatedAt" || jsStrictEq (jsGet lhs k) (jsGet rhs k)

/-- `put` of `lib/data/DataCache.tsx`. The internal
`get(id, async () => null)` reduces to a copy of the cached entry (or null):
a trigger decision is made (`add` always, `update` only when cached and the
values are not `areValuesEqual`), the copy of the value is stored, and the
listeners fire when the decision was positive. Returns the new state and the
listener invocations. -/
def cachePut (st : CacheState) (id : String) (op : DataOp) (v : JsObj) :
    CacheState × List Event :=
  let inCache := st.cache.lookup id
  let shouldTrigger : Bool :=
    match inCache, op with
    | some c, .update => !areValuesEqual c v
    | _, .add => true
    | _, _ => false
  let st' := { st with cache := recordSet st.cache id v }
  (st', if shouldTrigger then triggerEvents st' id op else [])

/-- `get` of `lib/data/DataCache.tsx`. The fallback loader is modelled by the
value it would produce (`none` = it resolves to null). Returns the result, the
new state, the listener invocations and whether the fallback was invoked. -/
def cacheGet (st : CacheState) (id : String) (fb : Option JsObj) :
    Option JsObj × CacheState × List Event × Bool :=
  match st.cache.lookup id with
  | some existing => (some existing, st, [], false)
  | none =>
    match fb with
    | some v =>
      let (st', evs) := cachePut st id .load v
      (some v, st', evs, true)
    | none => (none, st, [], true)

/-- `remove` of `lib/data/DataCache.tsx`: delete the entry and fire a
`remove` event only when an entry existed. -/
def cacheRemove (st : CacheState) (id : String) : CacheState × List Event :=
  let existing := (st.cache.lookup id).isSome
  let st' := { st with cache := recordDelete st.cache id }
  (st', if existing then triggerEvents st' id .remove else [])

/-- `has` of `lib/data/DataCache.tsx`. -/
def cacheHas (st : CacheState) (id : String) : Bool :=
  (st.cache.lookup id).isSome

/-- `invalidate` of `lib/data/DataCache.tsx`: delete without notification. -/
def cacheInvalidate (st : CacheState) (id : String) : CacheState :=
  { st with cache := recordDelete st.cache id }

/-- `item.id` coerced to the record key string, as in `cache[item.id]`
(non-string ids coerce through property-key stringification). -/
def entityId (o : JsObj) : String :=
  match jsGet o "id" with
  | .str s => s
  | .num n => toString n
  | .undefined => "undefined"
  | .null => "null"
  | .bool b => toString b
  | _ => "[object]"

/-- Store a list of loaded results one by one under op `load`
(the `for (const item of results) await put(item.id, 'load', item)` loop). -/
def cachePutAll (st : CacheState) (results : List JsObj) : CacheState × List Event :=
  results.foldl
    (fun (acc : CacheState × List Event) item =>
      let (st', evs) := cachePut acc.1 (entityId item) .load item
      (st', acc.2 ++ evs))
    (st, [])

/-- `query` of `lib/data/DataCache.tsx`. When the query's fingerprint is
marked loaded, the result is a copy of every cached value satisfying the
predicate (cache scan, fallback not invoked); otherwise the fallback's
results are each stored under `load` and the fingerprint is marked. -/
def cacheQuery (st : CacheState) (q : Query) (fb : List JsObj) :
    List JsObj × CacheState × List Event × Bool :=
  if keyFor q ∈ st.queryLoaded then
    ((st.cache.map Prod.snd).filter (toPredicate q), st, [], false)
  else
    let (st', evs) := cachePutAll st fb
    (fb, { st' with queryLoaded := st'.queryLoaded ++ [keyFor q] }, evs, true)


/-! ## Provider keys and scopes

`lib/core/providers/Providers.tsx` (revision kept at `src/unnamed/part_004`)
creates provider keys; `scope` in `src/unnamed/part_003` (current revision;
the superseded revision is kept at `lib/core/providers/ProviderImpl.tsx`)
resolves them. Provided values have an arbitrary type `V`; a `Provider<T>`
is a zero-argument producer which in this pure model is determined by the
value it produces. `Symbol` identity of a key and the identity of a listener
callback are modelled by natural numbers; the JS `Map`s preserve insertion
order, modelled by association lists with in-place update. -/

/-- A provider key (`ProviderKey<T>`): a `Symbol` identity plus the optional
default provider consulted by `use` when no scope registers the key. -/
structure PKey (V : Type) where
  symbolId : Nat
  defaultProvider : Option V := none
  deriving DecidableEq, Repr

/-- Modelled from the spec: the current revision of `providerKeyFor` in
`lib/core/providers/Providers.tsx` is missing from the sources. The kept
superseded revision (`src/unnamed/part_004` lines 93-98) stores a
`defaultValue` property on the key, but both revisions of the scope's `use`
(`src/unnamed/part_003` lines 81-83 and `lib/core/providers/ProviderImpl.tsx`
lines 67-69) consult only `key.defaultProvider`, and a caller
(`src/unnamed/part_008` line 86) passes a `defaultProvider` prop that the kept
revision's props type does not even accept. Per the spec (§4.1: `use` falls
back to "the key's configured default value or default-provider"), key
creation wires a configured default value (or default producer) into the
key's default provider. -/
def providerKeyFor (symbolId : Nat) (defaultValue : Option V := none)
    (defaultProducer : Option V := none) : PKey V :=
  { symbolId := symbolId,
    defaultProvider := defaultProducer.orElse fun _ => defaultValue }

/-- A chain of scopes (each `providerMap` keyed by key `Symbol` identity),
innermost first; `last` is the scope with no parent. -/
inductive ScopeChain (V : Type) where
  | last (providerMap : List (Nat × V))
  | cons (providerMap : List (Nat × V)) (parent : ScopeChain V)

/-- `use` of the scope (`src/unnamed/part_003` lines 70-88, identical in
`lib/core/providers/ProviderImpl.tsx` lines 57-74): check the local provider
map, else delegate to the parent; at the root fall back to the key's default
provider, and throw when there is none. -/
def scopeUse (k : PKey V) : ScopeChain V → Except String V
  | .cons m parent =>
    match m.lookup k.symbolId with
    | some provider => .ok provider
    | none => scopeUse k parent
  | .last m =>
    match m.lookup k.symbolId with
    | some provider => .ok provider
    | none =>
      match k.defaultProvider with
      | some d => .ok d
      | none =>
        .error "No provider for this key. Key can be found in call stack entry before use() calls."

/-- The provider maps of a chain, innermost first. -/
def chainMaps : ScopeChain V → List (List (Nat × V))
  | .last m => [m]
  | .cons m parent => m :: chainMaps parent

/-- Mutable state of one scope (`scope` in `src/unnamed/part_003`): the
provider map, the listener map (key identity → insertion-ordered `Map` from
listener handle to callback identity) and the module-level `idcount` counter
from which fresh listener handles are drawn. -/
structure ScopeState (V : Type) where
  providerMap : List (Nat × V) := []
  listeners : List (Nat × List (Nat × Nat)) := []
  idcount : Nat := 0

/-- `listen` (`src/unnamed/part_003` lines 90-99): append the callback to the
key's listener map under a fresh numeric handle (`idcount++`); returns the new
state and the handle the returned unsubscriber closes over. -/
def scopeListen (keyId : Nat) (callback : Nat) (st : ScopeState V) :
    ScopeState V × Nat :=
  let ls := (st.listeners.lookup keyId).getD []
  let handle := st.idcount
  ({ st with
      listeners := recordSet st.listeners keyId (ls ++ [(handle, callback)]),
      idcount := st.idcount + 1 },
   handle)

/-- The unsubscriber returned by `listen` (`src/unnamed/part_003` lines
100-105): delete the one entry with this handle from the key's listener map;
when the map becomes empty, prune the key from the listener record. (The JS
closure captures the `Map` object; as long as the key has not been pruned and
re-created, that object is the one the current state holds for the key, which
is the case in every modelled flow.) -/
def scopeUnlisten (keyId handle : Nat) (st : ScopeState V) : ScopeState V :=
  let ls := (st.listeners.lookup keyId).getD []
  let ls' := ls.filter fun p => p.1 ≠ handle
  if ls'.length = 0 then
    { st with listeners := recordDelete st.listeners keyId }
  else
    { st with listeners := recordSet st.listeners keyId ls' }

/-- `provideValue` (`src/unnamed/part_003` lines 62-68): register the constant
and synchronously invoke every listener registered for the key with the new
value. Returns the new state and the invocations `(callback, value)` in
order. -/
def scopeProvideValue (keyId : Nat) (v : V) (st : ScopeState V) :
    ScopeState V × List (Nat × V) :=
  let st' := { st with providerMap := recordSet st.providerMap keyId v }
  let ls := (st'.listeners.lookup keyId).getD []
  (st', ls.map fun p => (p.2, v))


/-! ## Data-store facade: `lib/data/DataStoreImpl.tsx`

`fullDataStore` composes a raw backend store `db`, a `DataCache` and a store
factory. The backend is modelled by the result it would produce
(`Except String` for a call that may reject). -/

/-- Shallow merge `{...a, ...b}`: `a`'s properties in order, overridden by
`b`'s values, `b`'s new properties appended in `b`'s order. -/
def objMerge (a b : JsObj) : JsObj :=
  b.foldl (fun acc kv => recordSet acc kv.1 kv.2) a

/-- `commonUpdateLogic` (`lib/data/DataStoreImpl.tsx` lines 305-318): reject
when the updater has no id (`id == null`), otherwise stamp
`updatedAt = updatedAt ?? now`. -/
def commonUpdateLogic (fields : JsObj) (now : Int) : Except String JsObj :=
  if jsNonNull (jsGet fields "id") then
    .ok (recordSet fields "updatedAt"
      (if jsNonNull (jsGet fields "updatedAt") then jsGet fields "updatedAt"
       else .num now))
  else
    .error "Must have an ID to update"

/-- `update` of `fullDataStore` (`lib/data/DataStoreImpl.tsx` lines 96-112).
The backend `db.update` is modelled by the result it would produce. When
optimistic and the id is cached, the shallow merge of the cached copy and the
stamped updater is republished tagged `update` before the backend call; the
backend result (or error) then follows. Returns the call's result, the final
cache state and the listener invocations in order. -/
def dataStoreUpdate (dbResult : JsObj → Except String JsObj) (st : CacheState)
    (fields : JsObj) (optimistic : Bool) (now : Int) :
    Except String JsObj × CacheState × List Event :=
  match commonUpdateLogic fields now with
  | .error e => (.error e, st, [])
  | .ok value =>
    let id := entityId value
    let (st1, evs1) :=
      if optimistic && cacheHas st id then
        match st.cache.lookup id with
        | some cached => cachePut st id .update (objMerge cached value)
        | none => (st, [])
      else (st, [])
    match dbResult value with
    | .error e => (.error e, st1, evs1)
    | .ok newValue =>
      let (st2, evs2) := cachePut st1 id .update newValue
      (.ok newValue, st2, evs1 ++ evs2)

/-! ## Edge walking: `walkEdges` / `findEdge` / `loadEdgesFromIds` /
`loadIncomingEdges` of `lib/data/DataStoreImpl.tsx`

Model classes are identified by name (`ModelClass` identity, distinct classes
having distinct names); a schema maps field names to field types, mirroring
the explicit `Scalar` / `ForwardRef` / `InverseRef` / `ArrayOf` view of the
schema reflection helpers (`isArrayType`, `getElementType`, `isModelRefType`,
`isInverseModelRefType`, `getModelClass`).

The stores obtained from the factory are modelled in their `noCache`
instantiation (`noCache` in `lib/data/DataCache.tsx` is a pure pass-through,
so `get` resolves directly against the backend and `put` is inert); the spec
requires the cached and uncached variants to satisfy the same interface, and
no claim about edge walking depends on the cache. The `Promise.all` fan-out
is modelled by left-to-right execution joining all results, a single failure
failing the whole walk. Recursion is bounded by explicit fuel; every theorem
supplies fuel the walk does not exhaust. -/

/-- A schema field type. -/
inductive FieldType where
  | scalar
  | modelRef (target : String)
  | inverseRef (target : String)
  | arrayOf (elem : FieldType)
  deriving DecidableEq, Repr

/-- An edge selector: a bare model-class token, or the depth-bounded triple
`[source, target, remaining]` (`EdgeSelector` in `lib/data/DataStore.tsx`). -/
inductive EdgeSelector where
  | bare (t : String)
  | triple (src tgt : String) (depth : Int)
  deriving DecidableEq, Repr

/-- `isArrayType type` of the field type. -/
def isArrayField : FieldType → Bool
  | .arrayOf _ => true
  | _ => false

/-- `isArray ? type.getElementType() : type`. -/
def elemTypeOf : FieldType → FieldType
  | .arrayOf e => e
  | t => t

/-- The target of a forward-reference field
(`isModelRefType(elemType) && elemType.getModelClass()`). -/
def refTargetOf (ft : FieldType) : Option String :=
  match elemTypeOf ft with
  | .modelRef t => some t
  | _ => none

/-- The target of an inverse-reference field
(`isInverseModelRefType(elemType) && elemType.getModelClass()`). -/
def invTargetOf (ft : FieldType) : Option String :=
  match elemTypeOf ft with
  | .inverseRef t => some t
  | _ => none

/-- `findEdge` (`lib/data/DataStoreImpl.tsx` lines 220-240), in state-passing
form over the per-field copy of the selector list: the first selector
matching the edge type wins — a bare token matches unconditionally and is
left in place, a triple matches only when its source is the current entity
type, its target is the edge type and its remaining depth is positive, and is
then decremented in place. `none` means no selector matched. -/
def findEdge (entityType edgeType : String) :
    List EdgeSelector → Option (List EdgeSelector)
  | [] => none
  | .triple s t d :: rest =>
    if s = entityType ∧ t = edgeType ∧ d > 0 then
      some (.triple s t (d - 1) :: rest)
    else
      (findEdge entityType edgeType rest).map (.triple s t d :: ·)
  | .bare t :: rest =>
    if t = edgeType then
      some (.bare t :: rest)
    else
      (findEdge entityType edgeType rest).map (.bare t :: ·)

/-- The world the walk runs against: the schema of each model class, the
backend `get` per class, and the backend `query` per class restricted to the
single-equality filter `{field, op: ==, value}` that `loadIncomingEdges`
issues. -/
structure EdgeWorld where
  schemas : String → List (String × FieldType)
  db : String → String → Option JsObj
  dbQuery : String → String → JsValue → List JsObj

/-- An id value coerced to the backend document-key string
(ids are strings; other primitives coerce as JS property keys do). -/
def jsKeyString : JsValue → String
  | .str s => s
  | .num n => toString n
  | .bool b => toString b
  | .undefined => "undefined"
  | .null => "null"
  | _ => "[object Object]"

/-- `edgeValue?.id` truthy: the edge value is an object whose `id` is set, so
it has already been loaded. -/
def alreadyLoaded : JsValue → Bool
  | .obj o => jsTruthy (jsGet o "id")
  | _ => false

/-- One pass of `walkEdges` over the schema fields of a single entity
(`lib/data/DataStoreImpl.tsx` lines 241-274), parameterized by the
continuations that re-enter the recursive walk: `walkE` walks a loaded
entity of a given type (the `walkEdges` call inside the target store's
`query`), `walkG` is `edgeStore.get(id, {edges})`. For each field, a fresh
copy of the original selector list is consulted (`deepCopyEdges`); when a
selector matches, forward-reference fields are resolved by id through the
target store and inverse-reference fields by a single-equality query against
the target store, assigning the whole result array to an array-typed field
and the first element (`shift`) otherwise; with no forward field in the
target schema pointing back (`fieldToMatch` stays empty, last match winning
otherwise), the walk fails with `No matching edge found`. -/
def walkFieldsWith (W : EdgeWorld)
    (walkE : String → JsObj → List EdgeSelector → Except String JsObj)
    (walkG : String → String → List EdgeSelector → Except String (Option JsObj))
    (ty : String) :
    List (String × FieldType) → JsObj → List EdgeSelector → Except String JsObj
  | [], v, _ => .ok v
  | (key, ft) :: rest, v, edges =>
    match refTargetOf ft with
    | some tgt =>
      match findEdge ty tgt edges with
      | none => walkFieldsWith W walkE walkG ty rest v edges
      | some edges' => do
        let ev := jsGet v key
        let newVal ←
          if alreadyLoaded ev then
            pure ev
          else
            match ev with
            | .arr ids => do
              let loaded ← ids.mapM fun e => do
                let r ← walkG tgt (jsKeyString e) edges'
                pure (match r with | some o => JsValue.obj o | none => JsValue.null)
              pure (JsValue.arr loaded)
            | e =>
              if jsNonNull e then do
                let r ← walkG tgt (jsKeyString e) edges'
                pure (match r with | some o => JsValue.obj o | none => JsValue.null)
              else
                pure JsValue.undefined
        walkFieldsWith W walkE walkG ty rest (recordSet v key newVal) edges
    | none =>
      match invTargetOf ft with
      | some tgt =>
        match findEdge ty tgt edges with
        | none => walkFieldsWith W walkE walkG ty rest v edges
        | some edges' =>
          let fieldToMatch := (W.schemas tgt).foldl
            (fun acc kf => if refTargetOf kf.2 = some ty then some kf.1 else acc)
            none
          match fieldToMatch with
          | none => .error "No matching edge found"
          | some fm => do
            let results := W.dbQuery tgt fm (jsGet v "id")
            let walked ← results.mapM fun r => walkE tgt r edges'
            let newVal :=
              if isArrayField ft then
                JsValue.arr (walked.map JsValue.obj)
              else
                match walked with
                | [] => JsValue.undefined
                | w :: _ => JsValue.obj w
            walkFieldsWith W walkE walkG ty rest (recordSet v key newVal) edges
      | none => walkFieldsWith W walkE walkG ty rest v edges

/-- Fueled walk of one entity: `walkEdges([v], edges)` for an entity `v` of
type `ty`, re-entering sibling stores through the factory. -/
def walkEntity (W : EdgeWorld) : Nat → String → JsObj → List EdgeSelector →
    Except String JsObj
  | 0, _, _, _ => .error "edge recursion fuel exhausted"
  | fuel + 1, ty, v, edges =>
    walkFieldsWith W
      (walkEntity W fuel)
      (fun t id eds =>
        match W.db t id with
        | none => .ok none
        | some w => (walkEntity W fuel t w eds).map some)
      ty (W.schemas ty) v edges

/-- `get(id, {edges})` of the `noCache`-backed store for type `ty`: resolve
against the backend, then walk the requested edges
(`lib/data/DataStoreImpl.tsx` lines 46-59). -/
def walkGet (W : EdgeWorld) (fuel : Nat) (ty id : String)
    (edges : List EdgeSelector) : Except String (Option JsObj) :=
  match W.db ty id with
  | none => .ok none
  | some v => (walkEntity W fuel ty v edges).map some


/-! ## Record lemmas -/

theorem lookup_recordSet_self [DecidableEq κ] (m : List (κ × α)) (k : κ) (v : α) :
    (recordSet m k v).lookup k = some v := by
  induction m with
  | nil => simp [recordSet, List.lookup]
  | cons p rest ih =>
    by_cases h : p.1 = k
    · simp [recordSet, h, List.lookup]
    · have hb : (k == p.1) = false := by
        simp [Ne.symm h]
      simp [recordSet, h, List.lookup, hb, ih]

theorem lookup_recordSet_ne [DecidableEq κ] (m : List (κ × α)) (k k' : κ) (v : α)
    (h : k' ≠ k) : (recordSet m k v).lookup k' = m.lookup k' := by
  induction m with
  | nil =>
    have hb : (k' == k) = false := by simp [h]
    simp [recordSet, List.lookup, hb]
  | cons p rest ih =>
    by_cases hp : p.1 = k
    · subst hp
      have hb : (k' == p.1) = false := by simp [h]
      simp [recordSet, List.lookup, hb]
    · simp only [recordSet, hp, if_false, List.lookup]
      by_cases hk' : k' = p.1
      · have hb : (k' == p.1) = true := by simp [hk']
        simp [hb]
      · have hb : (k' == p.1) = false := by simp [hk']
        simp [hb, ih]

theorem lookup_recordDelete_self [DecidableEq κ] (m : List (κ × α)) (k : κ) :
    (recordDelete m k).lookup k = none := by
  induction m with
  | nil => simp [recordDelete, List.lookup]
  | cons p rest ih =>
    by_cases h : p.1 = k
    · simpa [recordDelete, h] using ih
    · have hb : (k == p.1) = false := by simp [Ne.symm h]
      simpa [recordDelete, List.lookup, h, hb] using ih


/-! ## Cache state lemmas -/

theorem cachePut_queryLoaded (st : CacheState) (id : String) (op : DataOp)
    (v : JsObj) : ((cachePut st id op v).1).queryLoaded = st.queryLoaded := rfl

theorem cachePut_listeners (st : CacheState) (id : String) (op : DataOp)
    (v : JsObj) : ((cachePut st id op v).1).listeners = st.listeners := rfl

theorem cachePutAll_foldl_queryLoaded (l : List JsObj) :
    ∀ (st : CacheState) (evs : List Event),
      (l.foldl
        (fun (acc : CacheState × List Event) item =>
          let (st', evs') := cachePut acc.1 (entityId item) .load item
          (st', acc.2 ++ evs'))
        (st, evs)).1.queryLoaded = st.queryLoaded := by
  induction l with
  | nil => intro st evs; rfl
  | cons x xs ih =>
    intro st evs
    simpa using ih (cachePut st (entityId x) .load x).1 _

theorem cachePutAll_queryLoaded (st : CacheState) (l : List JsObj) :
    ((cachePutAll st l).1).queryLoaded = st.queryLoaded :=
  cachePutAll_foldl_queryLoaded l st []

/-! ## Notification conditions for `put` (claims C2 and C10) -/

/-- The notification condition stated by the claim for `update` operations:
some leaf field other than `updatedAt`, non-object-typed on at least one
side, has different values in the new value and the previously cached value
(a field absent from one side reads as `undefined` there). -/
def leafFieldDiffers (old v : JsObj) : Prop :=
  ∃ k ∈ old.map Prod.fst ++ v.map Prod.fst,
    k ≠ "updatedAt" ∧ jsGet old k ≠ jsGet v k ∧
      (isObjectType (jsGet old k) = false ∨ isObjectType (jsGet v k) = false)

instance (old v : JsObj) : Decidable (leafFieldDiffers old v) := by
  unfold leafFieldDiffers
  infer_instance

/-- The keys of `lhs` holding non-object-typed values (the `lhsKeys` of
`areValuesEqual`). -/
def nonObjectKeys (lhs : JsObj) : List String :=
  (lhs.map Prod.fst).filter fun k => !isObjectType (jsGet lhs k)

/-- The notification condition the code actually implements for `update` on
a cached id (the negation of `areValuesEqual old v`): the number of
non-object-typed keys of the cached value differs from the number of keys of
the new value at which the **cached** value is non-object-typed (this count
comparison does not exclude `updatedAt`), or some non-object-typed key of
the cached value other than `updatedAt` has a strictly different value in
the new value. -/
def updateNotifies (old v : JsObj) : Bool :=
  ((nonObjectKeys old).length !=
      ((v.map Prod.fst).filter fun k => !isObjectType (jsGet old k)).length) ||
    (nonObjectKeys old).any fun k =>
      k != "updatedAt" && !jsStrictEq (jsGet old k) (jsGet v k)

theorem updateNotifies_eq_not_areValuesEqual (old v : JsObj) :
    updateNotifies old v = !areValuesEqual old v := by
  simp only [updateNotifies, areValuesEqual, nonObjectKeys, Bool.not_and,
    List.all_eq_not_any_not, Bool.not_not, Bool.not_or, bne]


/-- **C2 (counterexample).** The claim states that `put(id, 'update', v)`
triggers listeners **only when** some non-object-typed leaf field other than
`updatedAt` differs between `v` and the previously cached value. With
`{name:"Ann", updatedAt:1}` cached under `"u1"` and a listener registered for
`"u1"`, `put("u1", 'update', {name:"Ann"})` does fire the listener although
the only difference is in the excluded `updatedAt` field (the value dropped
it): `areValuesEqual`'s key-count comparison does not exclude `updatedAt`. -/
theorem claim_C2_put_notification_counterexample :
    (cachePut
        { cache := [("u1", [("name", .str "Ann"), ("updatedAt", .num 1)])],
          listeners := [("u1", [0])] }
        "u1" .update [("name", .str "Ann")]).2 ≠ [] ∧
      ¬leafFieldDiffers [("name", .str "Ann"), ("updatedAt", .num 1)]
          [("name", .str "Ann")] := by
  constructor
  · decide
  · decide

/-- **C2 (amended).** For every cache state and value `v`: `put(id, 'add', v)`
triggers the listeners registered for `id` and the wildcard `"*"` listeners,
id-specific first; `put` with op `load` never triggers; `put(id, 'update', v)`
with `id` not cached never triggers; and `put(id, 'update', v)` with a
previously cached value triggers exactly the same listener sequence when
`updateNotifies` holds — i.e. when some non-object-typed key of the cached
value other than `updatedAt` has a different value in `v`, **or** when the
key counts compared by `areValuesEqual` (which do not exclude `updatedAt`)
differ — and triggers nothing otherwise. -/
theorem claim_C2_put_notification (st : CacheState) (id : String) (v : JsObj) :
    (cachePut st id .add v).2 =
      (listenersFor st id ++ listenersFor st "*").map (fun c => ⟨c, id, .add⟩) ∧
    (cachePut st id .load v).2 = [] ∧
    (st.cache.lookup id = none → (cachePut st id .update v).2 = []) ∧
    ∀ old, st.cache.lookup id = some old →
      (cachePut st id .update v).2 =
        if updateNotifies old v then
          (listenersFor st id ++ listenersFor st "*").map (fun c => ⟨c, id, .update⟩)
        else [] := by
  refine ⟨?_, ?_, ?_, ?_⟩
  · cases h : st.cache.lookup id <;>
      simp [cachePut, h, triggerEvents, listenersFor]
  · cases h : st.cache.lookup id <;>
      simp [cachePut, h]
  · intro h
    simp [cachePut, h]
  · intro old h
    rw [updateNotifies_eq_not_areValuesEqual]
    cases heq : areValuesEqual old v <;>
      simp [cachePut, h, heq, triggerEvents, listenersFor]

/-- Witness for C2 (amended) at a concrete state: an `add` on `"u1"` fires
the id listener then the wildcard listener, a `load` fires nothing, an
`update` on the uncached `"u2"` fires nothing, and an `update` of the cached
`"u1"` value that changes `name` fires (its `updateNotifies` holds). -/
theorem claim_C2_put_notification_witness :
    (cachePut
        { cache := [("u1", [("name", .str "Ann"), ("updatedAt", .num 1)])],
          listeners := [("u1", [0]), ("*", [7])] }
        "u1" .add [("name", .str "Bea")]).2 =
        [⟨0, "u1", .add⟩, ⟨7, "u1", .add⟩] ∧
      (cachePut
        { cache := [("u1", [("name", .str "Ann"), ("updatedAt", .num 1)])],
          listeners := [("u1", [0]), ("*", [7])] }
        "u1" .load [("name", .str "Bea")]).2 = [] ∧
      (cachePut
        { cache := [("u1", [("name", .str "Ann"), ("updatedAt", .num 1)])],
          listeners := [("u1", [0]), ("*", [7])] }
        "u2" .update [("name", .str "Bea")]).2 = [] ∧
      (cachePut
        { cache := [("u1", [("name", .str "Ann"), ("updatedAt", .num 1)])],
          listeners := [("u1", [0]), ("*", [7])] }
        "u1" .update [("name", .str "Bea"), ("updatedAt", .num 1)]).2 =
        [⟨0, "u1", .update⟩, ⟨7, "u1", .update⟩] := by
  have h := claim_C2_put_notification
    { cache := [("u1", [("name", .str "Ann"), ("updatedAt", .num 1)])],
      listeners := [("u1", [0]), ("*", [7])] }
    "u1" [("name", .str "Bea")]
  have h2 := claim_C2_put_notification
    { cache := [("u1", [("name", .str "Ann"), ("updatedAt", .num 1)])],
      listeners := [("u1", [0]), ("*", [7])] }
    "u2" [("name", .str "Bea")]
  have h4 := claim_C2_put_notification
    { cache := [("u1", [("name", .str "Ann"), ("updatedAt", .num 1)])],
      listeners := [("u1", [0]), ("*", [7])] }
    "u1" [("name", .str "Bea"), ("updatedAt", .num 1)]
  refine ⟨?_, h.2.1, h2.2.2.1 (by decide), ?_⟩
  · rw [h.1]; decide
  · rw [h4.2.2.2 [("name", .str "Ann"), ("updatedAt", .num 1)] (by decide)]
    decide

/-- **C10.** For every cache state in which `id` is absent,
`put(id, 'update', v)` stores a copy of `v` under `id` but performs no
listener notification at all, regardless of `v`. -/
theorem claim_C10_update_on_missing_id (st : CacheState) (id : String)
    (v : JsObj) (h : st.cache.lookup id = none) :
    (cachePut st id .update v).2 = [] ∧
    ((cachePut st id .update v).1).cache.lookup id = some v := by
  constructor
  · simp [cachePut, h]
  · simp [cachePut, lookup_recordSet_self]

/-- Witness for C10: updating the missing id `"u9"` in a cache holding
`"u1"` with listeners on `"u9"` and `"*"` stores the value silently. -/
theorem claim_C10_update_on_missing_id_witness :
    (cachePut
        { cache := [("u1", [("name", .str "Ann")])],
          listeners := [("u9", [0]), ("*", [1])] }
        "u9" .update [("name", .str "Bea")]).2 = [] ∧
      ((cachePut
        { cache := [("u1", [("name", .str "Ann")])],
          listeners := [("u9", [0]), ("*", [1])] }
        "u9" .update [("name", .str "Bea")]).1).cache.lookup "u9" =
        some [("name", .str "Bea")] :=
  claim_C10_update_on_missing_id _ "u9" _ (by decide)

/-- **C7.** For every id not present in the cache, `get(id, fallback)` twice
in sequence invokes the fallback exactly once: the first call invokes it and,
the result being non-null, stores it tagged `load` (silently); the second
call is served from the cache without invoking its own fallback and returns
the loaded entity. -/
theorem claim_C7_get_populates_once (st : CacheState) (id : String) (v : JsObj)
    (fb' : Option JsObj) (h : st.cache.lookup id = none) :
    (cacheGet st id (some v)).2.2.2 = true ∧
    (cacheGet st id (some v)).1 = some v ∧
    (cacheGet st id (some v)).2.1 = (cachePut st id .load v).1 ∧
    (cacheGet st id (some v)).2.2.1 = [] ∧
    cacheGet (cacheGet st id (some v)).2.1 id fb' =
      (some v, (cacheGet st id (some v)).2.1, [], false) := by
  refine ⟨?_, ?_, ?_, ?_, ?_⟩ <;>
    simp [cacheGet, cachePut, h, lookup_recordSet_self]

/-- Witness for C7 at the spec's scenario: empty cache, backend returns
`{id:"u1", name:"Ann"}`; the second `get` returns it without its fallback. -/
theorem claim_C7_get_populates_once_witness :
    (cacheGet {} "u1" (some [("id", .str "u1"), ("name", .str "Ann")])).2.2.2 = true ∧
      (cacheGet {} "u1" (some [("id", .str "u1"), ("name", .str "Ann")])).1 =
        some [("id", .str "u1"), ("name", .str "Ann")] ∧
      (cacheGet {} "u1" (some [("id", .str "u1"), ("name", .str "Ann")])).2.1 =
        (cachePut {} "u1" .load [("id", .str "u1"), ("name", .str "Ann")]).1 ∧
      (cacheGet {} "u1" (some [("id", .str "u1"), ("name", .str "Ann")])).2.2.1 = [] ∧
      cacheGet (cacheGet {} "u1" (some [("id", .str "u1"), ("name", .str "Ann")])).2.1
          "u1" none =
        (some [("id", .str "u1"), ("name", .str "Ann")],
          (cacheGet {} "u1" (some [("id", .str "u1"), ("name", .str "Ann")])).2.1,
          [], false) :=
  claim_C7_get_populates_once {} "u1" _ none (by decide)


/-! ## Query memoization (claims C3 and C9) -/

theorem cacheQuery_loaded (st : CacheState) (q : Query) (fb : List JsObj)
    (h : keyFor q ∈ st.queryLoaded) :
    cacheQuery st q fb =
      ((st.cache.map Prod.snd).filter (toPredicate q), st, [], false) := by
  simp [cacheQuery, h]

theorem cacheQuery_not_loaded_marks (st : CacheState) (q : Query)
    (fb : List JsObj) (h : keyFor q ∉ st.queryLoaded) :
    ((cacheQuery st q fb).2.1).queryLoaded = st.queryLoaded ++ [keyFor q] := by
  simp [cacheQuery, h, cachePutAll_queryLoaded]

/-- **C3.** For every query `q` whose fingerprint is not yet marked loaded,
`query(q, fallback)` invokes its fallback (and marks the fingerprint); any
later query whose `where` list equals `q`'s — the fingerprint ignores
ordering and limit — does not invoke its fallback and returns copies of
exactly the cached entities satisfying all of `q`'s `where` predicates under
the operators `==`, `!=`, `<`, `<=`, `>`, `>=`, `in`, `not-in`
(`toPredicate` / `matcherFor`), leaving the state unchanged. -/
theorem claim_C3_query_fingerprint_memoization (st : CacheState) (q : Query)
    (fb : List JsObj) (h : keyFor q ∉ st.queryLoaded) :
    (cacheQuery st q fb).2.2.2 = true ∧
    ∀ (q' : Query) (fb' : List JsObj), q'.whereClauses = q.whereClauses →
      cacheQuery (cacheQuery st q fb).2.1 q' fb' =
        ((((cacheQuery st q fb).2.1).cache.map Prod.snd).filter (toPredicate q),
          (cacheQuery st q fb).2.1, [], false) := by
  constructor
  · simp [cacheQuery, h]
  · intro q' fb' hq'
    have hpred : toPredicate q' = toPredicate q := by
      funext item
      simp [toPredicate, hq']
    have hmem : keyFor q' ∈ ((cacheQuery st q fb).2.1).queryLoaded := by
      rw [cacheQuery_not_loaded_marks st q fb h]
      simp [keyFor, hq']
    rw [cacheQuery_loaded _ q' fb' hmem, hpred]

/-- Witness for C3: an empty cache; the first query (on `name == "Ann"`)
invokes its fallback, which returns one matching entity; a second query with
the same `where` list but a different ordering and a limit is served from the
cache without its fallback (which would return a different entity). -/
theorem claim_C3_query_fingerprint_memoization_witness :
    (cacheQuery {} { whereClauses := some [⟨"name", .eq, .str "Ann"⟩] }
        [[("id", .str "u1"), ("name", .str "Ann")]]).2.2.2 = true ∧
      cacheQuery
          (cacheQuery {} { whereClauses := some [⟨"name", .eq, .str "Ann"⟩] }
            [[("id", .str "u1"), ("name", .str "Ann")]]).2.1
          { whereClauses := some [⟨"name", .eq, .str "Ann"⟩],
            order := some [⟨"name", true⟩], limit := some 10 }
          [[("id", .str "u2"), ("name", .str "Ann")]] =
        ([[("id", .str "u1"), ("name", .str "Ann")]],
          (cacheQuery {} { whereClauses := some [⟨"name", .eq, .str "Ann"⟩] }
            [[("id", .str "u1"), ("name", .str "Ann")]]).2.1,
          [], false) := by
  have h := claim_C3_query_fingerprint_memoization {}
    { whereClauses := some [⟨"name", .eq, .str "Ann"⟩] }
    [[("id", .str "u1"), ("name", .str "Ann")]] (by decide)
  refine ⟨h.1, ?_⟩
  rw [h.2 { whereClauses := some [⟨"name", .eq, .str "Ann"⟩],
            order := some [⟨"name", true⟩], limit := some 10 }
      [[("id", .str "u2"), ("name", .str "Ann")]] rfl]
  decide

/-- The cache operations a consumer can perform on a namespace, for stating
state invariants over arbitrary operation sequences. -/
inductive CacheOp where
  | putOp (id : String) (op : DataOp) (v : JsObj)
  | removeOp (id : String)
  | invalidateOp (id : String)
  | getOp (id : String) (fb : Option JsObj)
  | queryOp (q : Query) (fb : List JsObj)

/-- The state reached after one cache operation. -/
def applyOp (st : CacheState) : CacheOp → CacheState
  | .putOp id op v => (cachePut st id op v).1
  | .removeOp id => (cacheRemove st id).1
  | .invalidateOp id => cacheInvalidate st id
  | .getOp id fb => (cacheGet st id fb).2.1
  | .queryOp q fb => (cacheQuery st q fb).2.1

/-- The state reached after a sequence of cache operations. -/
def applyOps (st : CacheState) (ops : List CacheOp) : CacheState :=
  ops.foldl applyOp st

theorem applyOp_queryLoaded_mono (st : CacheState) (o : CacheOp)
    (k : Option (List Where)) (h : k ∈ st.queryLoaded) :
    k ∈ (applyOp st o).queryLoaded := by
  cases o with
  | putOp id op v => simpa [applyOp, cachePut] using h
  | removeOp id => simpa [applyOp, cacheRemove] using h
  | invalidateOp id => simpa [applyOp, cacheInvalidate] using h
  | getOp id fb =>
    rcases hl : st.cache.lookup id with _ | c
    · rcases fb with _ | v
      · simpa [applyOp, cacheGet, hl] using h
      · simpa [applyOp, cacheGet, hl, cachePut] using h
    · simpa [applyOp, cacheGet, hl] using h
  | queryOp q fb =>
    by_cases hq : keyFor q ∈ st.queryLoaded
    · simpa [applyOp, cacheQuery_loaded st q fb hq] using h
    · have := cacheQuery_not_loaded_marks st q fb hq
      simp only [applyOp, this, List.mem_append]
      exact Or.inl h

/-- **C9.** Once a query fingerprint is marked loaded in a cache namespace,
no sequence of subsequent operations (`put`, `remove`, `invalidate`, `get`,
or another `query`) ever clears the mark; consequently every later query
with an equal `where` list is served by scanning the cache — even after
matching entities have been removed or invalidated — and never invokes its
fallback. -/
theorem claim_C9_fingerprint_never_cleared (st : CacheState)
    (ops : List CacheOp) (k : Option (List Where)) (h : k ∈ st.queryLoaded) :
    k ∈ (applyOps st ops).queryLoaded ∧
    ∀ (q : Query) (fb : List JsObj), keyFor q = k →
      cacheQuery (applyOps st ops) q fb =
        (((applyOps st ops).cache.map Prod.snd).filter (toPredicate q),
          applyOps st ops, [], false) := by
  have hmem : k ∈ (applyOps st ops).queryLoaded := by
    induction ops generalizing st with
    | nil => exact h
    | cons o rest ih => exact ih _ (applyOp_queryLoaded_mono st o k h)
  exact ⟨hmem, fun q fb hq => cacheQuery_loaded _ q fb (hq ▸ hmem)⟩

/-- Witness for C9: a state whose fingerprint for `name == "Ann"` is marked
and whose cache holds the one matching entity; after removing that entity
and invalidating another id, a query with the same `where` list is still
served from the (now empty) cache scan, returning `[]` without invoking its
fallback. -/
theorem claim_C9_fingerprint_never_cleared_witness :
    (some [(⟨"name", .eq, .str "Ann"⟩ : Where)] ∈
      (applyOps
        { cache := [("u1", [("id", .str "u1"), ("name", .str "Ann")])],
          queryLoaded := [some [⟨"name", .eq, .str "Ann"⟩]] }
        [.removeOp "u1", .invalidateOp "u2"]).queryLoaded) ∧
      cacheQuery
          (applyOps
            { cache := [("u1", [("id", .str "u1"), ("name", .str "Ann")])],
              queryLoaded := [some [⟨"name", .eq, .str "Ann"⟩]] }
            [.removeOp "u1", .invalidateOp "u2"])
          { whereClauses := some [⟨"name", .eq, .str "Ann"⟩] }
          [[("id", .str "u7"), ("name", .str "Ann")]] =
        ([],
          applyOps
            { cache := [("u1", [("id", .str "u1"), ("name", .str "Ann")])],
              queryLoaded := [some [⟨"name", .eq, .str "Ann"⟩]] }
            [.removeOp "u1", .invalidateOp "u2"],
          [], false) := by
  have h := claim_C9_fingerprint_never_cleared
    { cache := [("u1", [("id", .str "u1"), ("name", .str "Ann")])],
      queryLoaded := [some [⟨"name", .eq, .str "Ann"⟩]] }
    [.removeOp "u1", .invalidateOp "u2"]
    (some [⟨"name", .eq, .str "Ann"⟩]) (by decide)
  refine ⟨h.1, ?_⟩
  rw [h.2 { whereClauses := some [⟨"name", .eq, .str "Ann"⟩] }
    [[("id", .str "u7"), ("name", .str "Ann")]] rfl]
  decide


/-! ## Provider resolution (claims C1 and C8) -/

theorem scopeUse_unregistered {V : Type} (k : PKey V) (chain : ScopeChain V)
    (h : ∀ m ∈ chainMaps chain, m.lookup k.symbolId = none) :
    scopeUse k chain =
      match k.defaultProvider with
      | some d => .ok d
      | none =>
        .error "No provider for this key. Key can be found in call stack entry before use() calls." := by
  induction chain with
  | last m =>
    have hm := h m (by simp [chainMaps])
    simp [scopeUse, hm]
  | cons m parent ih =>
    have hm := h m (by simp [chainMaps])
    have hrest : ∀ m' ∈ chainMaps parent, m'.lookup k.symbolId = none := fun m' hm' =>
      h m' (by simp [chainMaps, hm'])
    simp [scopeUse, hm, ih hrest]

/-- **C1.** For every provider key created with a configured default value and
no provider registered for it in the resolving scope or any ancestor scope,
`use(key)` returns that default value exactly; for a key with no registration
anywhere and no default, `use(key)` throws the unregistered-key error. (Key
creation is spec-modelled: see `providerKeyFor`.) -/
theorem claim_C1_use_default_or_throw {V : Type} (chain : ScopeChain V)
    (sym : Nat) (v : V)
    (h : ∀ m ∈ chainMaps chain, m.lookup sym = none) :
    scopeUse (providerKeyFor sym (some v) none) chain = .ok v ∧
    scopeUse (providerKeyFor sym none none) chain =
      .error "No provider for this key. Key can be found in call stack entry before use() calls." := by
  constructor
  · rw [scopeUse_unregistered (providerKeyFor sym (some v) none) chain h]
    simp [providerKeyFor, Option.orElse]
  · rw [scopeUse_unregistered (providerKeyFor sym none none) chain h]
    simp [providerKeyFor, Option.orElse]

/-- Witness for C1: a two-scope chain registering only key 1; key 2 with
default value 7 resolves to 7, and key 2 with no default throws. -/
theorem claim_C1_use_default_or_throw_witness :
    scopeUse (providerKeyFor 2 (some 7) none)
        (ScopeChain.cons [(1, 10)] (.last [])) = .ok 7 ∧
      scopeUse (providerKeyFor 2 none none)
        (ScopeChain.cons [(1, 10)] (.last (V := Nat) [])) =
        .error "No provider for this key. Key can be found in call stack entry before use() calls." :=
  claim_C1_use_default_or_throw (ScopeChain.cons [(1, 10)] (.last [])) 2 7
    (by decide)

/-- **C8.** For every scope state (whose existing listener handles predate the
current `idcount`, as all allocated handles do) and provider key: registering
the same callback twice via `listen` and invoking the unsubscriber returned
by the first registration removes exactly that one registration — the key's
listener map keeps the pre-existing registrations plus the second handle —
and a subsequent `provideValue(key, v)` still synchronously invokes the
remaining registration with `v` (after the pre-existing ones, in order). -/
theorem claim_C8_unsubscribe_removes_exactly_one {V : Type} (st : ScopeState V)
    (keyId : Nat) (f : Nat) (v : V)
    (hwf : ∀ p ∈ (st.listeners.lookup keyId).getD [], p.1 < st.idcount) :
    (scopeUnlisten keyId (scopeListen keyId f st).2
          (scopeListen keyId f (scopeListen keyId f st).1).1).listeners.lookup keyId =
      some (((st.listeners.lookup keyId).getD []) ++
        [((scopeListen keyId f (scopeListen keyId f st).1).2, f)]) ∧
    (scopeProvideValue keyId v
        (scopeUnlisten keyId (scopeListen keyId f st).2
          (scopeListen keyId f (scopeListen keyId f st).1).1)).2 =
      (((st.listeners.lookup keyId).getD []).map fun p => (p.2, v)) ++ [(f, v)] := by
  have h1 : (scopeListen keyId f st).1.listeners.lookup keyId =
      some (((st.listeners.lookup keyId).getD []) ++ [(st.idcount, f)]) := by
    simp [scopeListen, lookup_recordSet_self]
  have h1c : (scopeListen keyId f st).2 = st.idcount := rfl
  have h1i : (scopeListen keyId f st).1.idcount = st.idcount + 1 := rfl
  have h2 : (scopeListen keyId f (scopeListen keyId f st).1).1.listeners.lookup keyId =
      some (((st.listeners.lookup keyId).getD []) ++
        [(st.idcount, f), (st.idcount + 1, f)]) := by
    simp [scopeListen, lookup_recordSet_self, h1, h1i]
  have h2c : (scopeListen keyId f (scopeListen keyId f st).1).2 = st.idcount + 1 := rfl
  have hfilter :
      ((((st.listeners.lookup keyId).getD []) ++
          [(st.idcount, f), (st.idcount + 1, f)]).filter
        fun p => p.1 ≠ st.idcount) =
      ((st.listeners.lookup keyId).getD []) ++ [(st.idcount + 1, f)] := by
    rw [List.filter_append]
    congr 1
    · exact List.filter_eq_self.mpr fun p hp => by
        simpa using Nat.ne_of_lt (hwf p hp)
    · simp
  have h3 : (scopeUnlisten keyId (scopeListen keyId f st).2
        (scopeListen keyId f (scopeListen keyId f st).1).1).listeners =
      recordSet (scopeListen keyId f (scopeListen keyId f st).1).1.listeners keyId
        (((st.listeners.lookup keyId).getD []) ++ [(st.idcount + 1, f)]) := by
    rw [scopeUnlisten]
    simp only [h2, h1c, Option.getD_some, hfilter]
    rw [if_neg (by simp)]
  constructor
  · rw [h3, lookup_recordSet_self, h2c]
  · rw [scopeProvideValue]
    simp only [h3, lookup_recordSet_self, Option.getD_some, h2c, List.map_append,
      List.map]


/-- Witness for C8: starting from a fresh scope, register callback 42 twice
for key 3, unsubscribe the first registration, then provide 99: the second
registration alone remains and is invoked once with 99. -/
theorem claim_C8_unsubscribe_removes_exactly_one_witness :
    (scopeUnlisten 3 (scopeListen 3 42 ({} : ScopeState Nat)).2
          (scopeListen 3 42 (scopeListen 3 42 ({} : ScopeState Nat)).1).1).listeners.lookup 3 =
      some ((((({} : ScopeState Nat)).listeners.lookup 3).getD []) ++
        [((scopeListen 3 42 (scopeListen 3 42 ({} : ScopeState Nat)).1).2, 42)]) ∧
      (scopeProvideValue 3 99
          (scopeUnlisten 3 (scopeListen 3 42 ({} : ScopeState Nat)).2
            (scopeListen 3 42 (scopeListen 3 42 ({} : ScopeState Nat)).1).1)).2 =
        ((((({} : ScopeState Nat)).listeners.lookup 3).getD []).map fun p => (p.2, 99)) ++
          [(42, 99)] :=
  claim_C8_unsubscribe_removes_exactly_one {} 3 42 99 (by decide)

/-! ## Optimistic update without rollback (claim C5) -/

theorem jsGet_recordSet_ne (o : JsObj) (k k' : String) (x : JsValue)
    (h : k' ≠ k) : jsGet (recordSet o k x) k' = jsGet o k' := by
  simp [jsGet, lookup_recordSet_ne o k k' x h]

/-- **C5.** For every optimistic update of an id present in the cache, with a
backend whose update call fails: `update(v, {optimistic: true})` first stores
the shallow merge of the cached entry and the stamped updater tagged
`update` (the whole effect of the call is exactly that one optimistic put),
the backend error then propagates to the caller unchanged, and the cache
still holds the optimistic merged value — no automatic rollback. -/
theorem claim_C5_optimistic_update_no_rollback
    (db : JsObj → Except String JsObj) (st : CacheState) (fields : JsObj)
    (now : Int) (id : String) (cached : JsObj) (e : String)
    (hid : jsGet fields "id" = .str id)
    (hcached : st.cache.lookup id = some cached)
    (hdb : ∀ u, db u = .error e) :
    (dataStoreUpdate db st fields true now).1 = .error e ∧
    (dataStoreUpdate db st fields true now).2 =
      cachePut st id .update
        (objMerge cached (recordSet fields "updatedAt"
          (if jsNonNull (jsGet fields "updatedAt") then jsGet fields "updatedAt"
           else .num now))) ∧
    ((dataStoreUpdate db st fields true now).2.1).cache.lookup id =
      some (objMerge cached (recordSet fields "updatedAt"
        (if jsNonNull (jsGet fields "updatedAt") then jsGet fields "updatedAt"
         else .num now))) := by
  have hval : commonUpdateLogic fields now =
      .ok (recordSet fields "updatedAt"
        (if jsNonNull (jsGet fields "updatedAt") then jsGet fields "updatedAt"
         else .num now)) := by
    simp [commonUpdateLogic, hid, jsNonNull]
  have hidv : jsGet (recordSet fields "updatedAt"
      (if jsNonNull (jsGet fields "updatedAt") then jsGet fields "updatedAt"
       else .num now)) "id" = .str id := by
    rw [jsGet_recordSet_ne fields "updatedAt" "id" _ (by decide)]
    exact hid
  have hent : entityId (recordSet fields "updatedAt"
      (if jsNonNull (jsGet fields "updatedAt") then jsGet fields "updatedAt"
       else .num now)) = id := by
    simp [entityId, hidv]
  have hhas : cacheHas st id = true := by simp [cacheHas, hcached]
  refine ⟨?_, ?_, ?_⟩
  · simp [dataStoreUpdate, hval, hent, hhas, hcached, hdb]
  · simp [dataStoreUpdate, hval, hent, hhas, hcached, hdb]
  · simp [dataStoreUpdate, hval, hent, hhas, hcached, hdb, cachePut,
      lookup_recordSet_self]

/-- Witness for C5: `"u1"` is cached as `{id, name:"Ann", updatedAt:1}` with a
listener; an optimistic update to `name:"Bea"` against a failing backend
returns the backend error, leaves the merged value in the cache, and the only
notification is the optimistic one. -/
theorem claim_C5_optimistic_update_no_rollback_witness :
    (dataStoreUpdate (fun _ => .error "backend down")
        { cache := [("u1", [("id", .str "u1"), ("name", .str "Ann"),
            ("updatedAt", .num 1)])],
          listeners := [("u1", [4])] }
        [("id", .str "u1"), ("name", .str "Bea")] true 5).1 =
      .error "backend down" ∧
    ((dataStoreUpdate (fun _ => .error "backend down")
        { cache := [("u1", [("id", .str "u1"), ("name", .str "Ann"),
            ("updatedAt", .num 1)])],
          listeners := [("u1", [4])] }
        [("id", .str "u1"), ("name", .str "Bea")] true 5).2.1).cache.lookup "u1" =
      some [("id", .str "u1"), ("name", .str "Bea"), ("updatedAt", .num 5)] ∧
    (dataStoreUpdate (fun _ => .error "backend down")
        { cache := [("u1", [("id", .str "u1"), ("name", .str "Ann"),
            ("updatedAt", .num 1)])],
          listeners := [("u1", [4])] }
        [("id", .str "u1"), ("name", .str "Bea")] true 5).2.2 =
      [⟨4, "u1", .update⟩] := by
  have h := claim_C5_optimistic_update_no_rollback
    (fun _ => .error "backend down")
    { cache := [("u1", [("id", .str "u1"), ("name", .str "Ann"),
        ("updatedAt", .num 1)])],
      listeners := [("u1", [4])] }
    [("id", .str "u1"), ("name", .str "Bea")] 5 "u1"
    [("id", .str "u1"), ("name", .str "Ann"), ("updatedAt", .num 1)]
    "backend down" (by decide) (by decide) (fun _ => rfl)
  refine ⟨h.1, ?_, ?_⟩
  · rw [h.2.2]
    decide
  · rw [h.2.1]
    decide


/-! ## Edge-walking claims (C4 and C6) -/

/-- A selector that can never match while walking entities of type `ty`:
a depth-bounded triple whose source type differs from `ty` or whose
remaining depth is exhausted. -/
def selectorBlocked (ty : String) : EdgeSelector → Bool
  | .bare _ => false
  | .triple s _ d => s != ty || decide (d ≤ 0)

theorem findEdge_blocked (ty T : String) :
    ∀ edges : List EdgeSelector,
      (∀ e ∈ edges, selectorBlocked ty e = true) →
      findEdge ty T edges = none
  | [], _ => rfl
  | e :: rest, h => by
    have hrest := findEdge_blocked ty T rest
      (fun e' he' => h e' (List.mem_cons_of_mem _ he'))
    have he := h e (List.mem_cons_self e rest)
    cases e with
    | bare t => simp [selectorBlocked] at he
    | triple s t d =>
      simp only [selectorBlocked, Bool.or_eq_true, bne_iff_ne, decide_eq_true_eq] at he
      have hns : ¬(s = ty ∧ t = T ∧ d > 0) := by
        rintro ⟨rfl, rfl, hd⟩
        rcases he with hc | hc
        · exact hc rfl
        · omega
      simp [findEdge, hns, hrest]

theorem walkFieldsWith_blocked (W : EdgeWorld)
    (walkE : String → JsObj → List EdgeSelector → Except String JsObj)
    (walkG : String → String → List EdgeSelector → Except String (Option JsObj))
    (ty : String) (edges : List EdgeSelector)
    (hb : ∀ e ∈ edges, selectorBlocked ty e = true) :
    ∀ (fields : List (String × FieldType)) (v : JsObj),
      walkFieldsWith W walkE walkG ty fields v edges = .ok v
  | [], _ => rfl
  | (key, ft) :: rest, v => by
    have ih := walkFieldsWith_blocked W walkE walkG ty edges hb rest v
    rcases hr : refTargetOf ft with _ | tgt
    · rcases hi : invTargetOf ft with _ | tgt
      · simpa [walkFieldsWith, hr, hi] using ih
      · simpa [walkFieldsWith, hr, hi, findEdge_blocked ty tgt edges hb] using ih
    · simpa [walkFieldsWith, hr, findEdge_blocked ty tgt edges hb] using ih

/-- The fixed two-type world of the depth-bounding scenario: type `a` has a
forward-reference field `b` to type `b`, whose own schema again has a
forward-reference field `c` to type `b` — a recursive schema. -/
def edgeWorldC4 : EdgeWorld where
  schemas ty :=
    if ty = "a" then [("b", .modelRef "b")]
    else if ty = "b" then [("c", .modelRef "b")]
    else []
  db ty id :=
    if ty = "a" ∧ id = "a1" then some [("id", .str "a1"), ("b", .str "b1")]
    else if ty = "b" ∧ id = "b1" then some [("id", .str "b1"), ("c", .str "b2")]
    else if ty = "b" ∧ id = "b2" then some [("id", .str "b2"), ("c", .str "b3")]
    else none
  dbQuery _ _ _ := []

/-- **C4.** The depth-bounded edge selector: (i) a triple matches only while
its remaining-depth component is positive, and is then decremented on the
per-call copy of the selector list; (ii) once every selector in the copy
handed to the next level is an exhausted or source-mismatched triple, the
walk at that level loads nothing further; (iii) consequently, loading an `a`
entity with the selector `(a, b, 1)` in a world where `b`'s schema has a
`b`-typed edge loads the referenced `b` entity one level deep and does not
recurse into `b`'s own `b`-typed edge (`c` keeps the raw id `"b2"`). -/
theorem claim_C4_depth_bounded_edge_selector :
    (∀ (ty T : String) (d : Int),
      findEdge ty T [.triple ty T d] =
        if 0 < d then some [.triple ty T (d - 1)] else none) ∧
    (∀ (W : EdgeWorld) (fuel : Nat) (ty : String) (v : JsObj)
        (edges : List EdgeSelector),
      (∀ e ∈ edges, selectorBlocked ty e = true) →
      walkEntity W (fuel + 1) ty v edges = .ok v) ∧
    walkGet edgeWorldC4 5 "a" "a1" [.triple "a" "b" 1] =
      .ok (some [("id", .str "a1"),
        ("b", .obj [("id", .str "b1"), ("c", .str "b2")])]) := by
  refine ⟨?_, ?_, ?_⟩
  · intro ty T d
    by_cases hd : 0 < d
    · simp [findEdge, hd]
    · simp [findEdge, hd]
  · intro W fuel ty v edges hb
    exact walkFieldsWith_blocked W _ _ ty edges hb (W.schemas ty) v
  · decide

/-- Witness for C4: the selector `(a, b, 1)` matches at `a` and is consumed
to depth 0; at `b`, the exhausted copy `(a, b, 0)` is blocked, so walking the
loaded `b` entity leaves it untouched. -/
theorem claim_C4_depth_bounded_edge_selector_witness :
    findEdge "a" "b" [.triple "a" "b" 1] = some [.triple "a" "b" 0] ∧
      walkEntity edgeWorldC4 3 "b" [("id", .str "b1"), ("c", .str "b2")]
        [.triple "a" "b" 0] = .ok [("id", .str "b1"), ("c", .str "b2")] := by
  constructor
  · have h := claim_C4_depth_bounded_edge_selector.1 "a" "b" 1
    simpa using h
  · exact claim_C4_depth_bounded_edge_selector.2.1 edgeWorldC4 2 "b"
      [("id", .str "b1"), ("c", .str "b2")] [.triple "a" "b" 0] (by decide)

/-- The world of the schema-mismatch scenario: type `post` declares an
inverse-reference field `comments` of type `comment`, but `comment`'s schema
has no forward-reference field back to `post`. -/
def edgeWorldC6 : EdgeWorld where
  schemas ty :=
    if ty = "post" then [("comments", .arrayOf (.inverseRef "comment"))]
    else if ty = "comment" then [("text", .scalar)]
    else []
  db ty id := if ty = "post" ∧ id = "p1" then some [("id", .str "p1")] else none
  dbQuery _ _ _ := []

/-- `msg` names `name`: the name occurs in the message text. -/
def mentions (msg name : String) : Prop :=
  name.toList <:+: msg.toList

instance (msg name : String) : Decidable (mentions msg name) := by
  unfold mentions
  infer_instance

/-- **C6 (counterexample).** The claim states that the schema-mismatch error
"names the expected relationship". Walking `post`'s inverse `comments` edge
in a world where `comment` has no forward reference back to `post` does fail,
but with the fixed generic message `No matching edge found`, which names
neither the source type, nor the target type, nor the field of the expected
relationship. -/
theorem claim_C6_schema_mismatch_counterexample :
    walkGet edgeWorldC6 3 "post" "p1" [.bare "comment"] =
      .error "No matching edge found" ∧
    ¬mentions "No matching edge found" "post" ∧
    ¬mentions "No matching edge found" "comment" ∧
    ¬mentions "No matching edge found" "comments" := by
  refine ⟨by decide, by decide, by decide, by decide⟩

theorem refTargetOf_of_inv {ft : FieldType} {tgt : String}
    (h : invTargetOf ft = some tgt) : refTargetOf ft = none := by
  cases ft with
  | arrayOf e => cases e <;> simp_all [invTargetOf, refTargetOf, elemTypeOf]
  | scalar => simp_all [invTargetOf, refTargetOf, elemTypeOf]
  | modelRef t => simp_all [invTargetOf, refTargetOf, elemTypeOf]
  | inverseRef t => simp_all [invTargetOf, refTargetOf, elemTypeOf]

theorem fieldToMatch_none (ty : String) :
    ∀ l : List (String × FieldType),
      (∀ p ∈ l, refTargetOf p.2 ≠ some ty) →
      l.foldl (fun acc kf => if refTargetOf kf.2 = some ty then some kf.1 else acc)
        none = none
  | [], _ => rfl
  | p :: rest, h => by
    have hp := h p (List.mem_cons_self p rest)
    have ih := fieldToMatch_none ty rest
      (fun p' hp' => h p' (List.mem_cons_of_mem _ hp'))
    simpa [List.foldl, hp] using ih

/-- **C6 (amended).** For every inverse-reference field walked when the
target entity type's schema contains no forward-reference field pointing back
at the current entity type, edge walking fails with a schema-mismatch error —
but its message is the fixed generic string `No matching edge found`, which
does not name the expected relationship. -/
theorem claim_C6_schema_mismatch_generic_error (W : EdgeWorld)
    (walkE : String → JsObj → List EdgeSelector → Except String JsObj)
    (walkG : String → String → List EdgeSelector → Except String (Option JsObj))
    (ty key tgt : String) (ft : FieldType) (rest : List (String × FieldType))
    (v : JsObj) (edges edges' : List EdgeSelector)
    (hft : invTargetOf ft = some tgt)
    (hmatch : findEdge ty tgt edges = some edges')
    (hnone : ∀ p ∈ W.schemas tgt, refTargetOf p.2 ≠ some ty) :
    walkFieldsWith W walkE walkG ty ((key, ft) :: rest) v edges =
      .error "No matching edge found" := by
  have hr : refTargetOf ft = none := refTargetOf_of_inv hft
  have hf := fieldToMatch_none ty (W.schemas tgt) hnone
  simp [walkFieldsWith, hr, hft, hmatch, hf]

/-- Witness for C6 (amended): at the concrete `post`/`comment` world, walking
the `comments` field fails with the generic message. -/
theorem claim_C6_schema_mismatch_generic_error_witness :
    walkFieldsWith edgeWorldC6 (fun _ r _ => .ok r) (fun _ _ _ => .ok none)
        "post" [("comments", .arrayOf (.inverseRef "comment"))]
        [("id", .str "p1")] [.bare "comment"] =
      .error "No matching edge found" :=
  claim_C6_schema_mismatch_generic_error edgeWorldC6 _ _ "post" "comments"
    "comment" (.arrayOf (.inverseRef "comment")) [] [("id", .str "p1")]
    [.bare "comment"] [.bare "comment"] (by decide) (by decide) (by decide)

end NpeToolkit
